import Mathlib

/-!
Verification development for the `director_engine` dashboard
(`src/ui/script.js`, `src/ui/drawer_controller.js`).

The JavaScript handlers are embedded shallowly: the mutable log arrays
become `List String` values threaded through pure step functions, DOM
side effects (rendering, scrolling, CSS classes) are dropped or recorded
as explicit fields, and the guards on missing DOM elements become
explicit `Bool` parameters.  Each definition is translated from the
source file and line range named in its doc comment.
-/

/-- Constant `MAX_LOG_LINES` of `src/ui/script.js` line 372. -/
def MAX_LOG_LINES : Nat := 100

/-- Constant `MAX_PANEL_LINES` of `src/ui/script.js` line 373. -/
def MAX_PANEL_LINES : Nat := 20

/-- Constant `CHART_HISTORY_SIZE` of `src/ui/script.js` line 62. -/
def CHART_HISTORY_SIZE : Nat := 50

/-- The bounded-append pattern shared by the log arrays of
`src/ui/script.js`: `logArray.push(newText); if (logArray.length > cap)
logArray.shift();` (lines 382-385 with `cap = MAX_PANEL_LINES`, lines
444-449 with `cap = CHART_HISTORY_SIZE`, lines 457-458 with `cap = 10`).
The capacity is a parameter; each call site fixes its own constant. -/
def boundedAppend (cap : Nat) (log : List String) (t : String) : List String :=
  let l := log ++ [t]
  if cap < l.length then l.tail else l

/-- `updateAmbientLog` of `src/ui/script.js` lines 375-397.  The DOM
element lookup becomes the `elPresent` flag (`if(!el) return;`); the
`itemClass` argument and the re-rendering of the element's children are
presentational and do not touch the array, so they are omitted.
`logArray[logArray.length - 1] = newText` is `List.set`. -/
def updateAmbientLog (elPresent : Bool) (log : List String) (newText : String)
    (isUpdate : Bool) : List String :=
  if elPresent = false then log
  else if isUpdate && decide (0 < log.length) then log.set (log.length - 1) newText
  else boundedAppend MAX_PANEL_LINES log newText

/-- `appendLog` of `src/ui/script.js` lines 399-406.  The DOM children of
the target element become a `List String`; every call site inserts a
single top-level `<div>`, so `insertAdjacentHTML('beforeend', html)`
appends one child, and the `while (element.children.length >
MAX_LOG_LINES) element.removeChild(element.firstChild);` loop is dropping
from the front until the bound holds. -/
def appendLog (elPresent : Bool) (children : List String) (html : String) : List String :=
  if elPresent = false then children
  else
    let l := children ++ [html]
    l.drop (l.length - MAX_LOG_LINES)

/-- A feed as described by the spec's data model: a fixed capacity and an
ordered entry list.  In the source each feed is a bare global array
(`const visionLog = []`, script.js lines 57-59) whose capacity is the
hard-coded constant used at its call site. -/
structure Feed where
  capacity : Nat
  entries : List String
deriving DecidableEq, Repr

/-- Feed construction as the source performs it: `const visionLog = [];`
(script.js lines 57-59, 5-7).  There is no validation of any kind, so
construction never fails; the `Option` result records the absence of a
failure path. -/
def mkFeed (capacity : Nat) : Option Feed :=
  some { capacity := capacity, entries := [] }

/-- The last `cap` elements of a list, oldest first.  Used to state what
the bounded logs retain. -/
def takeLast (cap : Nat) (l : List String) : List String :=
  l.drop (l.length - cap)

theorem takeLast_of_le {cap : Nat} {l : List String} (h : l.length ≤ cap) :
    takeLast cap l = l := by
  unfold takeLast
  rw [Nat.sub_eq_zero_of_le h, List.drop_zero]

theorem takeLast_cons {cap : Nat} {a : String} {l : List String} (h : cap ≤ l.length) :
    takeLast cap (a :: l) = takeLast cap l := by
  unfold takeLast
  have : (a :: l).length - cap = (l.length - cap) + 1 := by
    simp only [List.length_cons]
    omega
  rw [this, List.drop_succ_cons]

theorem length_takeLast (cap : Nat) (l : List String) :
    (takeLast cap l).length = min cap l.length := by
  unfold takeLast
  rw [List.length_drop]
  omega

theorem length_boundedAppend_le {cap : Nat} {log : List String} (t : String)
    (h : log.length ≤ cap) : (boundedAppend cap log t).length ≤ cap := by
  unfold boundedAppend
  dsimp only
  split
  · simp only [List.length_tail, List.length_append, List.length_cons, List.length_nil]
    omega
  · next hc =>
    simp only [List.length_append, List.length_cons, List.length_nil] at hc ⊢
    omega

theorem boundedAppend_foldl (cap : Nat) :
    ∀ (xs : List String) (s : List String), s.length ≤ cap →
      List.foldl (boundedAppend cap) s xs = takeLast cap (s ++ xs) := by
  intro xs
  induction xs with
  | nil =>
    intro s h
    simp only [List.foldl_nil, List.append_nil]
    exact (takeLast_of_le h).symm
  | cons x xs ih =>
    intro s h
    rw [List.foldl_cons]
    rw [ih (boundedAppend cap s x) (length_boundedAppend_le x h)]
    unfold boundedAppend
    dsimp only
    by_cases hc : cap < (s ++ [x]).length
    · simp only [hc, if_true]
      have hlen : s.length = cap := by
        simp only [List.length_append, List.length_cons, List.length_nil] at hc
        omega
      have htail : (s ++ [x]).tail ++ xs = ((s ++ [x]) ++ xs).tail := by
        cases s with
        | nil => simp
        | cons a s' => simp
      rw [htail, List.append_assoc]
      simp only [List.singleton_append]
      cases hsx : s ++ x :: xs with
      | nil =>
        exfalso
        have := congrArg List.length hsx
        simp at this
      | cons b m =>
        rw [← hsx]
        have hlb : cap ≤ m.length := by
          have := congrArg List.length hsx
          simp only [List.length_append, List.length_cons] at this
          omega
        rw [hsx, List.tail_cons, takeLast_cons hlb]
    · simp only [hc, if_false]
      rw [List.append_assoc]
      simp

theorem boundedAppend_foldl_nil (cap : Nat) (xs : List String) :
    List.foldl (boundedAppend cap) [] xs = takeLast cap xs := by
  have h := boundedAppend_foldl cap xs [] (by simp)
  simpa using h

/-- C3: for every sequence of appends (no replacements) to a feed with
capacity `C < N`, the resulting snapshot is exactly the last `C` appended
contents in order, and has exactly `C` entries.  The capacity-3 instance
`"x","y","z","w" ↦ ["y","z","w"]` is the witness below. -/
theorem c3_fifo_eviction (C : Nat) (xs : List String) (h : C < xs.length) :
    List.foldl (boundedAppend C) [] xs = xs.drop (xs.length - C) ∧
      (List.foldl (boundedAppend C) [] xs).length = C := by
  rw [boundedAppend_foldl_nil]
  refine ⟨rfl, ?_⟩
  rw [length_takeLast]
  omega

/-- Witness for C3: a capacity-3 feed receiving `"x","y","z","w"` retains
`["y","z","w"]`. -/
theorem c3_witness :
    List.foldl (boundedAppend 3) [] ["x", "y", "z", "w"] = ["y", "z", "w"] ∧
      (List.foldl (boundedAppend 3) [] ["x", "y", "z", "w"]).length = 3 := by
  have h := c3_fifo_eviction 3 ["x", "y", "z", "w"] (by decide)
  simpa using h

/-- An entry of the audio transcript panel: one `<div>` child of the
`audio-context` container (`src/ui/script.js` lines 423-440).  `domId`
is the element's `id` attribute (set only when the event carried a
`session_id`), `content` its `textContent`, and `isLive` records the
`live-pulse` class added on in-place updates (the constant
`audio-highlight` class is presentational and omitted). -/
structure AudioEntry where
  domId : Option String
  content : String
  isLive : Bool
deriving DecidableEq, Repr

/-- An incoming `audio_context` event `{ session_id?, is_partial?, context }`
(`src/ui/script.js` line 423).  `isLive` models the `is_partial` flag. -/
structure AudioEvent where
  sessionId : Option String
  isLive : Bool
  context : String
deriving DecidableEq, Repr

/-- The id looked up by ``document.getElementById(`session-${d.session_id}`)``
(script.js line 427): JavaScript stringifies an absent `session_id` as
`"undefined"` inside the template literal. -/
def audioKey (e : AudioEvent) : String :=
  "session-" ++ (match e.sessionId with | some s => s | none => "undefined")

/-- `document.getElementById` returns the first element in document order
with the given id; mutating its `textContent` and adding `live-pulse`
(script.js lines 430-431) replaces that entry in place. -/
def replaceFirst : List AudioEntry → String → String → List AudioEntry
  | [], _, _ => []
  | x :: xs, k, t =>
    if x.domId == some k then { x with content := t, isLive := true } :: xs
    else x :: replaceFirst xs k t

/-- Whether some transcript entry carries the looked-up id
(`existingItem` being non-null at script.js line 427). -/
def hasKey (l : List AudioEntry) (k : String) : Bool :=
  l.any (fun x => x.domId == some k)

/-- The id assigned to a freshly appended `<div>`:
`if (d.session_id) div.id = `session-${d.session_id}`;` (script.js
line 434).  The JavaScript condition is a truthiness test, so both an
absent `session_id` and the falsy empty string leave the element
without an id. -/
def audioDomId (sessionId : Option String) : Option String :=
  match sessionId with
  | some s => if s = "" then none else some ("session-" ++ s)
  | none => none

/-- The `audio_context` handler of `src/ui/script.js` lines 423-440 acting
on the container's child list.  `containerPresent` models the
`if (!logContainer) return;` guard.  When `d.is_partial` holds and an
element with the session id exists, that element is updated in place;
otherwise a new `<div>` is appended (with an id only when `session_id`
is truthy).  No eviction of any kind occurs. -/
def audioStep (containerPresent : Bool) (entries : List AudioEntry) (e : AudioEvent) :
    List AudioEntry :=
  if containerPresent = false then entries
  else if e.isLive && hasKey entries (audioKey e) then
    replaceFirst entries (audioKey e) e.context
  else
    entries ++ [{ domId := audioDomId e.sessionId
                  content := e.context
                  isLive := false }]

/-- An incoming `event_scored` event `{ score, source, text }`
(`src/ui/script.js` line 442).  The JavaScript number `score` is embedded
as a rational. -/
structure ScoredEvent where
  score : ℚ
  source : String
  text : String
deriving DecidableEq

/-- The integer `n` chosen by `Number.prototype.toFixed(2)`: `n / 100` is
as close to the score as possible, ties taking the larger `n`
(round half toward positive infinity on the scaled value). -/
def jsToFixed2Int (q : ℚ) : ℤ := ⌊q * 100 + 1 / 2⌋

/-- `data.score.toFixed(2)` (script.js lines 445 and 456): the score
rounded to two decimals and rendered as a decimal string. -/
def toFixed2Str (q : ℚ) : String :=
  let n := jsToFixed2Int q
  let a := n.natAbs
  (if n < 0 then "-" else "") ++ Nat.repr (a / 100) ++ "." ++
    (if a % 100 < 10 then "0" ++ Nat.repr (a % 100) else Nat.repr (a % 100))

/-- The log line built at script.js line 456:
```${data.score.toFixed(2)} - ${data.source}: ${data.text.substring(0,30)}...```. -/
def formatLogLine (e : ScoredEvent) : String :=
  toFixed2Str e.score ++ " - " ++ e.source ++ ": " ++ e.text.take 30 ++ "..."

/-- The global state mutated by the `event_scored` handler:
`window.scoreLabels`, `window.scoreData` (the chart's parallel series,
script.js lines 6-7) and `window.graphLog` (the textual score log,
line 5).  `scoreData` holds the pushed `toFixed(2)` strings. -/
structure DashState where
  scoreLabels : List String
  scoreData : List String
  graphLog : List String
deriving DecidableEq

/-- The initial empty arrays (script.js lines 5-7). -/
def initDash : DashState := ⟨[], [], []⟩

/-- The `event_scored` handler of `src/ui/script.js` lines 442-466.
Pushes `""` onto `scoreLabels` and `score.toFixed(2)` onto `scoreData`;
when `scoreData.length > CHART_HISTORY_SIZE` both arrays shift once
(lines 444-449).  The graph log push at lines 456-458 is the bounded
append with the literal capacity 10.  Chart and DOM updates are
presentational. -/
def eventScored (st : DashState) (e : ScoredEvent) : DashState :=
  let labels1 := st.scoreLabels ++ [""]
  let data1 := st.scoreData ++ [toFixed2Str e.score]
  let evict := CHART_HISTORY_SIZE < data1.length
  { scoreLabels := if evict then labels1.tail else labels1
    scoreData := if evict then data1.tail else data1
    graphLog := boundedAppend 10 st.graphLog (formatLogLine e) }

theorem audioStep_append_of_not_live {e : AudioEvent} (st : List AudioEntry)
    (h : e.isLive = false) :
    audioStep true st e =
      st ++ [{ domId := audioDomId e.sessionId
               content := e.context
               isLive := false }] := by
  unfold audioStep
  simp [h]

theorem audioStep_append_of_no_match {e : AudioEvent} (st : List AudioEntry)
    (h : hasKey st (audioKey e) = false) :
    audioStep true st e =
      st ++ [{ domId := audioDomId e.sessionId
               content := e.context
               isLive := false }] := by
  unfold audioStep
  simp [h]

theorem length_replaceFirst (l : List AudioEntry) (k : String) (t : String) :
    (replaceFirst l k t).length = l.length := by
  induction l with
  | nil => rfl
  | cons x xs ih =>
    unfold replaceFirst
    split
    · simp
    · simp [ih]

theorem replaceFirst_spec (st1 : List AudioEntry) (x : AudioEntry)
    (st2 : List AudioEntry) (k : String) (t : String)
    (hx : x.domId = some k) (h1 : ∀ y ∈ st1, y.domId ≠ some k) :
    replaceFirst (st1 ++ x :: st2) k t =
      st1 ++ { x with content := t, isLive := true } :: st2 := by
  induction st1 with
  | nil =>
    simp only [List.nil_append]
    unfold replaceFirst
    simp [hx]
  | cons y ys ih =>
    have hy : y.domId ≠ some k := h1 y (by simp)
    simp only [List.cons_append]
    unfold replaceFirst
    rw [if_neg (by simp [hy])]
    rw [ih (fun z hz => h1 z (by simp [hz]))]

theorem audioStep_length_replace {e : AudioEvent} (st : List AudioEntry)
    (hl : e.isLive = true) (hk : hasKey st (audioKey e) = true) :
    (audioStep true st e).length = st.length := by
  unfold audioStep
  simp [hl, hk, length_replaceFirst]

theorem audioStep_length_grow {e : AudioEvent} (st : List AudioEntry)
    (h : e.isLive = false) : (audioStep true st e).length = st.length + 1 := by
  rw [audioStep_append_of_not_live st h]
  simp

theorem audio_foldl_replicate (evt : AudioEvent) (h : evt.isLive = false) :
    ∀ (n : Nat) (s : List AudioEntry),
      (List.foldl (audioStep true) s (List.replicate n evt)).length = s.length + n := by
  intro n
  induction n with
  | zero => intro s; simp
  | succ m ih =>
    intro s
    rw [List.replicate_succ, List.foldl_cons, ih]
    rw [audioStep_length_grow s h]
    omega

theorem eventScored_step_invariant (st : DashState) (e : ScoredEvent)
    (h1 : st.scoreLabels.length = st.scoreData.length)
    (h2 : st.scoreData.length ≤ CHART_HISTORY_SIZE) :
    (eventScored st e).scoreLabels.length = (eventScored st e).scoreData.length ∧
      (eventScored st e).scoreData.length ≤ CHART_HISTORY_SIZE := by
  unfold eventScored
  dsimp only
  split
  · next hc =>
    simp only [List.length_tail, List.length_append, List.length_cons,
      List.length_nil] at hc ⊢
    omega
  · next hc =>
    simp only [List.length_append, List.length_cons, List.length_nil, not_lt] at hc ⊢
    omega

theorem eventScored_foldl_invariant :
    ∀ (es : List ScoredEvent) (st : DashState),
      st.scoreLabels.length = st.scoreData.length →
      st.scoreData.length ≤ CHART_HISTORY_SIZE →
      (List.foldl eventScored st es).scoreLabels.length =
          (List.foldl eventScored st es).scoreData.length ∧
        (List.foldl eventScored st es).scoreData.length ≤ CHART_HISTORY_SIZE := by
  intro es
  induction es with
  | nil => intro st h1 h2; exact ⟨h1, h2⟩
  | cons e es ih =>
    intro st h1 h2
    rw [List.foldl_cons]
    have step := eventScored_step_invariant st e h1 h2
    exact ih (eventScored st e) step.1 step.2

/-- Counterexample to C1: the audio transcript feed never evicts.  After
21 non-partial `audio_context` events the container holds 21 entries,
exceeding the 20-entry panel capacity that bounds the other ambient
logs; no eviction from the front ever happened. -/
theorem c1_cex_audio_unbounded :
    (List.foldl (audioStep true) []
        (List.replicate 21 ⟨some "s", false, "t"⟩)).length = 21 ∧
      MAX_PANEL_LINES < 21 := by
  constructor
  · rw [audio_foldl_replicate ⟨some "s", false, "t"⟩ rfl 21 []]
    simp
  · decide

/-- C1 amended: the vision log, spoken-word log, score history and
chat/reply log are capacity-bounded with single front eviction per
append (capacities 20, 20, 50, 100), but the audio transcript appends
without any eviction, so it alone grows unbounded: it reaches any length
`n` under `n` non-replacing events. -/
theorem c1_amended_feed_bounds :
    (∀ ds : List String,
        (List.foldl (fun lg d => updateAmbientLog true lg d false) [] ds).length
          ≤ MAX_PANEL_LINES) ∧
    (∀ es : List ScoredEvent,
        (List.foldl eventScored initDash es).scoreData.length ≤ CHART_HISTORY_SIZE ∧
        (List.foldl eventScored initDash es).scoreLabels.length ≤ CHART_HISTORY_SIZE) ∧
    (∀ hs : List String,
        (List.foldl (appendLog true) [] hs).length ≤ MAX_LOG_LINES) ∧
    (∀ n : Nat, ∃ es : List AudioEvent,
        es.length = n ∧ (List.foldl (audioStep true) [] es).length = n) := by
  refine ⟨?_, ?_, ?_, ?_⟩
  · intro ds
    have hfun : (fun lg d => updateAmbientLog true lg d false) =
        boundedAppend MAX_PANEL_LINES := by
      funext lg d
      simp [updateAmbientLog]
    rw [hfun, boundedAppend_foldl_nil, length_takeLast]
    omega
  · intro es
    have key := eventScored_foldl_invariant es initDash (by simp [initDash])
      (by simp [initDash])
    omega
  · intro hs
    have key : ∀ (hs : List String) (s : List String),
        s.length ≤ MAX_LOG_LINES →
        (List.foldl (appendLog true) s hs).length ≤ MAX_LOG_LINES := by
      intro hs
      induction hs with
      | nil => intro s h; simpa
      | cons x xs ih =>
        intro s h
        rw [List.foldl_cons]
        apply ih
        unfold appendLog
        dsimp only
        rw [if_neg (by simp)]
        simp only [List.length_drop, List.length_append, List.length_cons,
          List.length_nil]
        omega
    exact key hs [] (by simp)
  · intro n
    refine ⟨List.replicate n ⟨some "s", false, "t"⟩, by simp, ?_⟩
    rw [audio_foldl_replicate ⟨some "s", false, "t"⟩ rfl n []]
    simp

/-- Counterexample to C2.  First fold: after sessions `s1` then `s2`, a
partial update for `s1` replaces the FIRST matching entry — which is not
the last entry — instead of appending as the claim's last-entry rule
predicts (the claim would give length 3; the code gives length 2 and
rewrites entry 0).  Second fold: an event whose id equals the last
entry's id but with `is_partial` absent APPENDS a duplicate-id entry
instead of replacing (the claim predicts replacement and length 1). -/
theorem c2_cex_replace_rule :
    List.foldl (audioStep true) []
        [⟨some "s1", true, "a"⟩, ⟨some "s2", false, "b"⟩, ⟨some "s1", true, "c"⟩] =
      [⟨some "session-s1", "c", true⟩, ⟨some "session-s2", "b", false⟩] ∧
    List.foldl (audioStep true) []
        [⟨some "s1", true, "a"⟩, ⟨some "s1", false, "d"⟩] =
      [⟨some "session-s1", "a", false⟩, ⟨some "session-s1", "d", false⟩] := by
  constructor
  · decide
  · decide

/-- C2 amended: with the audio container present, (1) an event without
`is_partial` always appends a fresh entry, even when its session id
matches an existing entry; (2) an event whose looked-up id matches no
entry appends (in particular an absent `session_id` looks up
`"session-undefined"`); (3) an event with `is_partial` whose id matches
replaces the FIRST matching entry in document order — not necessarily
the last — in place, leaving every other entry and the length
unchanged, and the entry keeps its id for further replacement.  In each
append the new entry gets an id only for a truthy `session_id`: an
empty-string `session_id` yields an id-less entry, so (4) two partial
events for session `""` append twice rather than replace. -/
theorem c2_amended_audio_identity_rule :
    (∀ (st : List AudioEntry) (e : AudioEvent), e.isLive = false →
        audioStep true st e = st ++ [⟨audioDomId e.sessionId, e.context, false⟩]) ∧
    (∀ (st : List AudioEntry) (e : AudioEvent), hasKey st (audioKey e) = false →
        audioStep true st e = st ++ [⟨audioDomId e.sessionId, e.context, false⟩]) ∧
    (∀ (st1 : List AudioEntry) (x : AudioEntry) (st2 : List AudioEntry)
        (e : AudioEvent), e.isLive = true → x.domId = some (audioKey e) →
        (∀ y ∈ st1, y.domId ≠ some (audioKey e)) →
        audioStep true (st1 ++ x :: st2) e =
          st1 ++ { x with content := e.context, isLive := true } :: st2) ∧
    List.foldl (audioStep true) [] [⟨some "", true, "a"⟩, ⟨some "", true, "b"⟩] =
      [⟨none, "a", false⟩, ⟨none, "b", false⟩] := by
  refine ⟨?_, ?_, ?_, by decide⟩
  · intro st e h
    exact audioStep_append_of_not_live st h
  · intro st e h
    exact audioStep_append_of_no_match st h
  · intro st1 x st2 e hl hx h1
    have hk : hasKey (st1 ++ x :: st2) (audioKey e) = true := by
      unfold hasKey
      rw [List.any_eq_true]
      exact ⟨x, by simp, by simp [hx]⟩
    unfold audioStep
    simp only [hl, hk, Bool.and_self, if_true]
    rw [if_neg (by simp)]
    exact replaceFirst_spec st1 x st2 (audioKey e) e.context hx h1

/-- Witness for C2 (amended): a partial update for `s1` replaces the
first entry in place while a later `s2` entry sits behind it. -/
theorem c2_witness :
    audioStep true [⟨some "session-s1", "a", false⟩, ⟨some "session-s2", "b", false⟩]
        ⟨some "s1", true, "c"⟩ =
      [⟨some "session-s1", "c", true⟩, ⟨some "session-s2", "b", false⟩] := by
  have h := c2_amended_audio_identity_rule.2.2.1 []
      ⟨some "session-s1", "a", false⟩ [⟨some "session-s2", "b", false⟩]
      ⟨some "s1", true, "c"⟩ rfl (by decide) (by simp)
  simpa using h

/-- C4: the replace branches never change feed length.  For the audio
transcript, a partial update matching an existing session leaves the
entry count unchanged; for `updateAmbientLog`, an update on a non-empty
log rewrites the last slot in place; and the concrete streaming scenario
`(s1, partial, "a")` then `(s1, partial, "ab")` yields exactly one entry
with content `"ab"`. -/
theorem c4_replace_preserves_length :
    (∀ (st : List AudioEntry) (e : AudioEvent), e.isLive = true →
        hasKey st (audioKey e) = true → (audioStep true st e).length = st.length) ∧
    (∀ (lg : List String) (t : String), lg ≠ [] →
        (updateAmbientLog true lg t true).length = lg.length) ∧
    List.foldl (audioStep true) [] [⟨some "s1", true, "a"⟩, ⟨some "s1", true, "ab"⟩] =
      [⟨some "session-s1", "ab", true⟩] := by
  refine ⟨?_, ?_, by decide⟩
  · intro st e hl hk
    exact audioStep_length_replace st hl hk
  · intro lg t h
    have hp : 0 < lg.length := List.length_pos.mpr h
    simp [updateAmbientLog, hp, List.length_set]

/-- Witness for C4: replacing the sole entry of a one-entry audio feed
keeps its length at 1. -/
theorem c4_witness :
    (audioStep true [⟨some "session-s1", "a", false⟩] ⟨some "s1", true, "ab"⟩).length
      = 1 := by
  have h := c4_replace_preserves_length.1 [⟨some "session-s1", "a", false⟩]
      ⟨some "s1", true, "ab"⟩ rfl (by decide)
  simpa using h

/-- C5: the score series never desynchronizes: after any sequence of
`event_scored` events the label array and the data array have equal
length, and the shared 50-entry capacity is respected (the oldest pair is
shifted from both arrays in the same handler invocation, which runs to
completion before the next event). -/
theorem c5_score_series_sync (es : List ScoredEvent) :
    (List.foldl eventScored initDash es).scoreLabels.length =
        (List.foldl eventScored initDash es).scoreData.length ∧
      (List.foldl eventScored initDash es).scoreData.length ≤ CHART_HISTORY_SIZE := by
  exact eventScored_foldl_invariant es initDash (by simp [initDash]) (by simp [initDash])

theorem eventScored_last_score (st : DashState) (e : ScoredEvent) :
    (eventScored st e).scoreData.getLast? = some (toFixed2Str e.score) := by
  unfold eventScored
  dsimp only
  cases h : st.scoreData with
  | nil =>
    simp [CHART_HISTORY_SIZE]
  | cons a as =>
    split
    · rw [List.cons_append, List.tail_cons, List.getLast?_concat]
    · rw [List.getLast?_concat]

/-- Counterexample to C6: the handler stores `score.toFixed(2)`, not the
raw value.  Recording the raw score `1/8` and recording the raw score
`13/100` leave identical stored entries `"0.13"`, although the raw
values differ — so the retained sequence does not equal (and cannot even
recover) the raw incoming score values. -/
theorem toFixed2Str_eval {q : ℚ} {n : ℤ} (h : jsToFixed2Int q = n) :
    toFixed2Str q =
      (if n < 0 then "-" else "") ++ Nat.repr (n.natAbs / 100) ++ "." ++
        (if n.natAbs % 100 < 10 then "0" ++ Nat.repr (n.natAbs % 100)
         else Nat.repr (n.natAbs % 100)) := by
  unfold toFixed2Str
  rw [h]

theorem toFixed2Str_one_eighth : toFixed2Str (1/8) = "0.13" := by
  rw [toFixed2Str_eval (n := 13) (by norm_num [jsToFixed2Int])]
  decide

theorem toFixed2Str_thirteen_hundredths : toFixed2Str (13/100) = "0.13" := by
  rw [toFixed2Str_eval (n := 13) (by norm_num [jsToFixed2Int])]
  decide

theorem toFixed2Str_three_halves : toFixed2Str (3/2) = "1.50" := by
  rw [toFixed2Str_eval (n := 150) (by norm_num [jsToFixed2Int])]
  decide

theorem toFixed2Str_neg_quarter : toFixed2Str (-1/4) = "-0.25" := by
  rw [toFixed2Str_eval (n := -25) (by norm_num [jsToFixed2Int])]
  decide

theorem c6_cex_toFixed_rounds :
    (eventScored initDash ⟨1/8, "src", "txt"⟩).scoreData = ["0.13"] ∧
      (eventScored initDash ⟨13/100, "src", "txt"⟩).scoreData = ["0.13"] ∧
      (1/8 : ℚ) ≠ 13/100 := by
  refine ⟨?_, ?_, by norm_num⟩
  · rw [show (eventScored initDash ⟨1/8, "src", "txt"⟩).scoreData =
        [toFixed2Str (1/8)] from rfl, toFixed2Str_one_eighth]
  · rw [show (eventScored initDash ⟨13/100, "src", "txt"⟩).scoreData =
        [toFixed2Str (13/100)] from rfl, toFixed2Str_thirteen_hundredths]

/-- C6 amended: no clamping is applied — out-of-range scores such as
`3/2` and `-1/4` are stored as `"1.50"` and `"-0.25"` — but every stored
entry is the incoming score transformed by `toFixed(2)` (rounded to two
decimals and rendered as a string), not the raw value. -/
theorem c6_amended_no_clamp_rounded :
    (∀ (st : DashState) (e : ScoredEvent),
        (eventScored st e).scoreData.getLast? = some (toFixed2Str e.score)) ∧
      toFixed2Str (3/2) = "1.50" ∧ toFixed2Str (-1/4) = "-0.25" ∧
      toFixed2Str (1/8) = "0.13" := by
  exact ⟨eventScored_last_score, toFixed2Str_three_halves, toFixed2Str_neg_quarter,
    toFixed2Str_one_eighth⟩

theorem eventScored_foldl_graphLog :
    ∀ (es : List ScoredEvent) (st : DashState),
      (List.foldl eventScored st es).graphLog =
        List.foldl (boundedAppend 10) st.graphLog (es.map formatLogLine) := by
  intro es
  induction es with
  | nil => intro st; rfl
  | cons e es ih =>
    intro st
    rw [List.map_cons, List.foldl_cons, List.foldl_cons, ih]
    rfl

/-- C9: the textual score log `graphLog` retains exactly the 10 most
recent formatted lines (oldest evicted first) after any sequence of
`event_scored` events; its capacity 10 differs from each of the
named capacities 20, 50 and 100. -/
theorem c9_graphlog_capacity_10 (es : List ScoredEvent) :
    (List.foldl eventScored initDash es).graphLog =
        takeLast 10 (es.map formatLogLine) ∧
      (List.foldl eventScored initDash es).graphLog.length ≤ 10 ∧
      (MAX_PANEL_LINES ≠ 10 ∧ CHART_HISTORY_SIZE ≠ 10 ∧ MAX_LOG_LINES ≠ 10) := by
  have h := eventScored_foldl_graphLog es initDash
  rw [show initDash.graphLog = [] from rfl, boundedAppend_foldl_nil] at h
  refine ⟨h, ?_, by decide⟩
  rw [h, length_takeLast]
  omega

/-- Counterexample to C7: the source performs no construction-time
validation whatsoever — a feed of capacity 0 is constructed successfully
(no configuration error exists in the code), and the append operation is
total even at capacity 0, silently retaining nothing. -/
theorem c7_cex_construction_total :
    mkFeed 0 = some { capacity := 0, entries := [] } ∧
      boundedAppend 0 [] "a" = [] := by
  exact ⟨rfl, rfl⟩

/-- C7 amended: the code has no feed constructor and no capacity check:
construction always succeeds for every capacity.  Non-positive
capacities simply never arise because every capacity is one of the
hard-coded positive constants 20, 50 and 100; a capacity-0 feed would
retain no entries rather than fail. -/
theorem c7_amended_no_validation :
    (∀ c : Nat, (mkFeed c).isSome = true) ∧
      MAX_PANEL_LINES = 20 ∧ CHART_HISTORY_SIZE = 50 ∧ MAX_LOG_LINES = 100 ∧
      0 < MAX_PANEL_LINES ∧ 0 < CHART_HISTORY_SIZE ∧ 0 < MAX_LOG_LINES ∧
      (∀ t : String, boundedAppend 0 [] t = []) := by
  exact ⟨fun c => rfl, rfl, rfl, rfl, by decide, by decide, by decide, fun t => rfl⟩

/-- The debug drawer subsystem state (`src/ui/drawer_controller.js`,
first copy, lines 1-131): `current` is `currentDebugDrawer`, `isOpen`
and `overlayVisible` are the `open`/`visible` CSS classes, `navActive`
is which `.debug-nav-btn` carries `active`, `content` is the innerHTML
of `debug-drawer-content`, and `refreshRunning` records whether a drawer
auto-refresh interval is active. -/
structure DrawerState where
  current : Option String
  isOpen : Bool
  overlayVisible : Bool
  navActive : Option String
  content : String
  refreshRunning : Bool
deriving DecidableEq

/-- `stopAllDrawerRefreshes` of `drawer_controller.js` lines 100-117:
invokes every drawer's stop function, halting any running refresh. -/
def stopAllDrawerRefreshes (st : DrawerState) : DrawerState :=
  { st with refreshRunning := false }

/-- `closeDebugDrawer` of `drawer_controller.js` lines 81-97.
`elementsPresent` models the `if (drawer)` / `if (overlay)` guards on
the class removals; clearing the nav buttons, stopping refreshes and
resetting `currentDebugDrawer` always run. -/
def closeDebugDrawer (elementsPresent : Bool) (st : DrawerState) : DrawerState :=
  { st with
    isOpen := if elementsPresent then false else st.isOpen
    overlayVisible := if elementsPresent then false else st.overlayVisible
    refreshRunning := false
    navActive := none
    current := none }

/-- `openDebugDrawer` of `drawer_controller.js` lines 9-78.  The lookups
of the three static drawer elements become `elementsPresent`; the
`fetch` of ``/static/drawers/`${name}`.html`` is external, so its outcome
is the `fetchResult` argument (`.ok` with the HTML text, or `.error`
with `error.message` from a failed fetch or non-ok status) and the
returned list records the URLs requested.  `refreshFnExists` models
whether `window[start<Name>Refresh]` is a function when the deferred
lookup (lines 64-72) runs; script re-execution (lines 37-48) is an
external side effect with no state of its own here. -/
def openDebugDrawer (elementsPresent : Bool) (refreshFnExists : Bool)
    (fetchResult : Except String String) (st : DrawerState) (name : String) :
    DrawerState × List String :=
  if elementsPresent = false then (st, [])
  else if st.current = some name then (closeDebugDrawer elementsPresent st, [])
  else
    let st1 := stopAllDrawerRefreshes st
    match fetchResult with
    | Except.ok html =>
      ({ st1 with
          content := html
          navActive := some name
          isOpen := true
          overlayVisible := true
          current := some name
          refreshRunning := refreshFnExists },
        ["/static/drawers/" ++ name ++ ".html"])
    | Except.error msg =>
      ({ st1 with
          content := "<div class=\"p-8 text-center text-red-400\">Error loading drawer: "
            ++ msg ++ "</div>" },
        ["/static/drawers/" ++ name ++ ".html"])

/-- C10: opening the drawer that is already open toggles it closed: the
call reduces to `closeDebugDrawer` — clearing `currentDebugDrawer`,
stopping all refreshes, removing the open classes — and issues no fetch
at all, regardless of what a fetch would have returned. -/
theorem c10_toggle_same_drawer (st : DrawerState) (name : String)
    (rf : Bool) (fr : Except String String) (h : st.current = some name) :
    openDebugDrawer true rf fr st name = (closeDebugDrawer true st, []) ∧
      (closeDebugDrawer true st).current = none ∧
      (closeDebugDrawer true st).refreshRunning = false ∧
      (closeDebugDrawer true st).isOpen = false := by
  refine ⟨?_, rfl, rfl, rfl⟩
  unfold openDebugDrawer
  rw [if_neg (by simp), if_pos h]

/-- Witness for C10: with `thread_stats` open, opening `thread_stats`
again closes the drawer and fetches nothing. -/
theorem c10_witness :
    openDebugDrawer true false (Except.error "e")
        ⟨some "thread_stats", true, true, some "thread_stats", "c", true⟩
        "thread_stats" =
      (closeDebugDrawer true
        ⟨some "thread_stats", true, true, some "thread_stats", "c", true⟩, []) ∧
      (closeDebugDrawer true
        ⟨some "thread_stats", true, true, some "thread_stats", "c", true⟩).current
        = none ∧
      (closeDebugDrawer true
        ⟨some "thread_stats", true, true, some "thread_stats", "c", true⟩).refreshRunning
        = false ∧
      (closeDebugDrawer true
        ⟨some "thread_stats", true, true, some "thread_stats", "c", true⟩).isOpen
        = false :=
  c10_toggle_same_drawer
    ⟨some "thread_stats", true, true, some "thread_stats", "c", true⟩
    "thread_stats" false (Except.error "e") rfl

/-- The no-break space character U+00A0, which the HTML text-node
serializer escapes as `&nbsp;`. -/
def nbspChar : Char := Char.ofNat 160

/-- Serialization of one character of an HTML text node (HTML standard
"escaping a string", not in attribute mode): `&`, NBSP, `<` and `>`
become entities, everything else passes through. -/
def escChar (c : Char) : List Char :=
  if c = '&' then ['&', 'a', 'm', 'p', ';']
  else if c = nbspChar then ['&', 'n', 'b', 's', 'p', ';']
  else if c = '<' then ['&', 'l', 't', ';']
  else if c = '>' then ['&', 'g', 't', ';']
  else [c]

/-- `sanitizeHTML` of `src/ui/script.js` lines 408-412: assigning
`temp.textContent = str` and reading `temp.innerHTML` yields the
text-node serialization of `str`, i.e. `escChar` applied to every
character.  Strings are embedded as `List Char`. -/
def sanitizeHTML : List Char → List Char
  | [] => []
  | c :: rest => escChar c ++ sanitizeHTML rest

/-- How the browser parses serialized text back into character data:
recognize the four entities `sanitizeHTML` emits, pass other characters
through.  The fuel argument only forces termination; it is instantiated
with the input length.  Used to state that sanitized text renders as the
literal input. -/
def decodeGo : Nat → List Char → List Char
  | 0, l => l
  | _ + 1, [] => []
  | fuel + 1, c :: rest =>
    if c = '&' then
      match rest with
      | 'a' :: 'm' :: 'p' :: ';' :: r => '&' :: decodeGo fuel r
      | 'n' :: 'b' :: 's' :: 'p' :: ';' :: r => nbspChar :: decodeGo fuel r
      | 'l' :: 't' :: ';' :: r => '<' :: decodeGo fuel r
      | 'g' :: 't' :: ';' :: r => '>' :: decodeGo fuel r
      | _ => c :: decodeGo fuel rest
    else c :: decodeGo fuel rest

/-- Entity decoding of a full serialized string. -/
def decodeEntities (l : List Char) : List Char := decodeGo l.length l

theorem decodeGo_nil : ∀ f : Nat, decodeGo f [] = [] := by
  intro f
  cases f with
  | zero => rfl
  | succ g => rfl

theorem decodeGo_amp (f : Nat) (l : List Char) :
    decodeGo (f + 1) ('&' :: 'a' :: 'm' :: 'p' :: ';' :: l) = '&' :: decodeGo f l := rfl

theorem decodeGo_nbsp (f : Nat) (l : List Char) :
    decodeGo (f + 1) ('&' :: 'n' :: 'b' :: 's' :: 'p' :: ';' :: l) =
      nbspChar :: decodeGo f l := rfl

theorem decodeGo_lt (f : Nat) (l : List Char) :
    decodeGo (f + 1) ('&' :: 'l' :: 't' :: ';' :: l) = '<' :: decodeGo f l := rfl

theorem decodeGo_gt (f : Nat) (l : List Char) :
    decodeGo (f + 1) ('&' :: 'g' :: 't' :: ';' :: l) = '>' :: decodeGo f l := rfl

theorem decodeGo_plain (f : Nat) {c : Char} (l : List Char) (h : c ≠ '&') :
    decodeGo (f + 1) (c :: l) = c :: decodeGo f l := by
  simp only [decodeGo]
  rw [if_neg h]

theorem escChar_length_pos (c : Char) : 1 ≤ (escChar c).length := by
  unfold escChar
  split_ifs <;> simp

theorem length_le_sanitize (s : List Char) : s.length ≤ (sanitizeHTML s).length := by
  induction s with
  | nil => simp [sanitizeHTML]
  | cons c rest ih =>
    show (c :: rest).length ≤ (escChar c ++ sanitizeHTML rest).length
    rw [List.length_cons, List.length_append]
    have := escChar_length_pos c
    omega

theorem decodeGo_sanitize :
    ∀ (fuel : Nat) (s : List Char), s.length ≤ fuel →
      decodeGo fuel (sanitizeHTML s) = s := by
  intro fuel
  induction fuel with
  | zero =>
    intro s h
    have : s = [] := by
      cases s with
      | nil => rfl
      | cons a t => simp at h
    subst this
    rfl
  | succ f ih =>
    intro s h
    cases s with
    | nil =>
      show decodeGo (f + 1) (sanitizeHTML []) = []
      rw [show sanitizeHTML [] = [] from rfl, decodeGo_nil]
    | cons c rest =>
      have hr : rest.length ≤ f := by
        rw [List.length_cons] at h
        omega
      show decodeGo (f + 1) (escChar c ++ sanitizeHTML rest) = c :: rest
      by_cases h1 : c = '&'
      · subst h1
        rw [show escChar '&' ++ sanitizeHTML rest =
            '&' :: 'a' :: 'm' :: 'p' :: ';' :: sanitizeHTML rest from rfl]
        rw [decodeGo_amp, ih rest hr]
      · by_cases h2 : c = nbspChar
        · subst h2
          rw [show escChar nbspChar ++ sanitizeHTML rest =
              '&' :: 'n' :: 'b' :: 's' :: 'p' :: ';' :: sanitizeHTML rest from rfl]
          rw [decodeGo_nbsp, ih rest hr]
        · by_cases h3 : c = '<'
          · subst h3
            rw [show escChar '<' ++ sanitizeHTML rest =
                '&' :: 'l' :: 't' :: ';' :: sanitizeHTML rest from rfl]
            rw [decodeGo_lt, ih rest hr]
          · by_cases h4 : c = '>'
            · subst h4
              rw [show escChar '>' ++ sanitizeHTML rest =
                  '&' :: 'g' :: 't' :: ';' :: sanitizeHTML rest from rfl]
              rw [decodeGo_gt, ih rest hr]
            · have he : escChar c = [c] := by
                unfold escChar
                rw [if_neg h1, if_neg h2, if_neg h3, if_neg h4]
              rw [he, List.singleton_append, decodeGo_plain f _ h1, ih rest hr]

theorem decode_sanitize (s : List Char) : decodeEntities (sanitizeHTML s) = s := by
  unfold decodeEntities
  exact decodeGo_sanitize (sanitizeHTML s).length s (length_le_sanitize s)

theorem count_escChar_lt (c : Char) : (escChar c).count '<' = 0 := by
  unfold escChar
  split_ifs with h1 h2 h3 h4
  · decide
  · decide
  · decide
  · decide
  · simp [List.count_cons, h3]

theorem count_escChar_gt (c : Char) : (escChar c).count '>' = 0 := by
  unfold escChar
  split_ifs with h1 h2 h3 h4
  · decide
  · decide
  · decide
  · decide
  · simp [List.count_cons, h4]

theorem count_lt_sanitize (s : List Char) : (sanitizeHTML s).count '<' = 0 := by
  induction s with
  | nil => rfl
  | cons c rest ih =>
    show (escChar c ++ sanitizeHTML rest).count '<' = 0
    rw [List.count_append, count_escChar_lt, ih]

theorem count_gt_sanitize (s : List Char) : (sanitizeHTML s).count '>' = 0 := by
  induction s with
  | nil => rfl
  | cons c rest ih =>
    show (escChar c ++ sanitizeHTML rest).count '>' = 0
    rw [List.count_append, count_escChar_gt, ih]

/-- The span opened around each regex match by `highlightMentions`
(script.js line 417). -/
def spanOpenH : List Char := "<span class=\"highlight-word\">".toList

/-- The closing tag of the highlight span. -/
def spanCloseH : List Char := "</span>".toList

/-- Case-insensitive match of a lowercase pattern against a prefix of the
input, as the `i` flag of `/(nami|peepingnami)/gi` performs. -/
def lowerMatches : List Char → List Char → Bool
  | [], _ => true
  | _ :: _, [] => false
  | p :: ps, c :: cs => (c.toLower == p) && lowerMatches ps cs

/-- First alternative of the regex at script.js line 416. -/
def namiPat : List Char := ['n', 'a', 'm', 'i']

/-- Second alternative of the regex at script.js line 416. -/
def peepingnamiPat : List Char := ['p', 'e', 'e', 'p', 'i', 'n', 'g', 'n', 'a', 'm', 'i']

/-- The global replace
`sanitizedMessage.replace(/(nami|peepingnami)/gi, '<span class="highlight-word">$&</span>')`
of script.js line 417: scan left to right; at each position try the
alternatives in order, wrap the matched text (original case, `$&`) in
the highlight span and resume after it, otherwise emit the character.
The fuel argument only forces termination (each step consumes at least
one character); it is instantiated with the input length. -/
def highlightGo : Nat → List Char → List Char
  | 0, l => l
  | _ + 1, [] => []
  | fuel + 1, c :: cs =>
    if lowerMatches namiPat (c :: cs) then
      spanOpenH ++ (c :: cs).take 4 ++ spanCloseH ++ highlightGo fuel ((c :: cs).drop 4)
    else if lowerMatches peepingnamiPat (c :: cs) then
      spanOpenH ++ (c :: cs).take 11 ++ spanCloseH ++ highlightGo fuel ((c :: cs).drop 11)
    else c :: highlightGo fuel cs

/-- The number of regex matches the scan wraps, mirrored from
`highlightGo`. -/
def mentionCountGo : Nat → List Char → Nat
  | 0, _ => 0
  | _ + 1, [] => 0
  | fuel + 1, c :: cs =>
    if lowerMatches namiPat (c :: cs) then
      mentionCountGo fuel ((c :: cs).drop 4) + 1
    else if lowerMatches peepingnamiPat (c :: cs) then
      mentionCountGo fuel ((c :: cs).drop 11) + 1
    else mentionCountGo fuel cs

/-- `highlightMentions` of script.js lines 414-418: sanitize first, then
wrap every mention match. -/
def highlightMentions (message : List Char) : List Char :=
  highlightGo (sanitizeHTML message).length (sanitizeHTML message)

/-- The number of mention matches found in the sanitized message. -/
def mentionMatches (message : List Char) : Nat :=
  mentionCountGo (sanitizeHTML message).length (sanitizeHTML message)

/-- `/(nami|peepingnami)/gi.test(data.message)` at script.js line 469,
applied to the raw message. -/
def mentionTest (message : List Char) : Bool :=
  mentionCountGo message.length message != 0

theorem count_lt_highlightGo :
    ∀ (fuel : Nat) (l : List Char),
      (highlightGo fuel l).count '<' = l.count '<' + 2 * mentionCountGo fuel l := by
  intro fuel
  induction fuel with
  | zero => intro l; simp [highlightGo, mentionCountGo]
  | succ f ih =>
    intro l
    cases l with
    | nil => simp [highlightGo, mentionCountGo]
    | cons c cs =>
      simp only [highlightGo, mentionCountGo]
      split_ifs with h1 h2
      · rw [List.count_append, List.count_append, List.count_append, ih]
        have hsplit : ((c :: cs).take 4).count '<' + ((c :: cs).drop 4).count '<' =
            (c :: cs).count '<' := by
          rw [← List.count_append, List.take_append_drop]
        have ho : spanOpenH.count '<' = 1 := by decide
        have hc : spanCloseH.count '<' = 1 := by decide
        rw [ho, hc]
        omega
      · rw [List.count_append, List.count_append, List.count_append, ih]
        have hsplit : ((c :: cs).take 11).count '<' + ((c :: cs).drop 11).count '<' =
            (c :: cs).count '<' := by
          rw [← List.count_append, List.take_append_drop]
        have ho : spanOpenH.count '<' = 1 := by decide
        have hc : spanCloseH.count '<' = 1 := by decide
        rw [ho, hc]
        omega
      · rw [List.count_cons, List.count_cons, ih]
        ring

theorem count_lt_highlightMentions (m : List Char) :
    (highlightMentions m).count '<' = 2 * mentionMatches m := by
  unfold highlightMentions mentionMatches
  rw [count_lt_highlightGo, count_lt_sanitize, Nat.zero_add]

/-- Characters `encodeURIComponent` leaves unescaped: ASCII
alphanumerics and `-_.!~*'()`. -/
def uriUnreserved (c : Char) : Bool :=
  c.isAlphanum || ['-', '_', '.', '!', '~', '*', '\'', '(', ')'].contains c

/-- Upper-case hexadecimal digit, as `encodeURIComponent` emits. -/
def hexDigitChar (n : Nat) : Char :=
  if n < 10 then Char.ofNat (48 + n) else Char.ofNat (55 + n)

/-- The UTF-8 bytes of a code point, used by `encodeURIComponent` for
escaped characters. -/
def utf8Bytes (c : Char) : List Nat :=
  let n := c.toNat
  if n < 128 then [n]
  else if n < 2048 then [192 + n / 64, 128 + n % 64]
  else if n < 65536 then [224 + n / 4096, 128 + n / 64 % 64, 128 + n % 64]
  else [240 + n / 262144, 128 + n / 4096 % 64, 128 + n / 64 % 64, 128 + n % 64]

/-- One percent-escaped byte, `%XX`. -/
def percentEncodeByte (b : Nat) : List Char :=
  ['%', hexDigitChar (b / 16 % 16), hexDigitChar (b % 16)]

/-- Percent-escape a byte sequence. -/
def encodeByteList : List Nat → List Char
  | [] => []
  | b :: bs => percentEncodeByte b ++ encodeByteList bs

/-- The JavaScript builtin `encodeURIComponent`, used at script.js lines
494-497 to embed the raw reply, prompt, reason and filtered area into
`data-` attributes: unreserved characters pass through, everything else
becomes percent-escaped UTF-8. -/
def encodeURIComponent : List Char → List Char
  | [] => []
  | c :: cs =>
    (if uriUnreserved c then [c] else encodeByteList (utf8Bytes c)) ++
      encodeURIComponent cs

theorem hexDigitChar_ne_lt : ∀ n : Nat, n < 16 → hexDigitChar n ≠ '<' := by
  decide

theorem count_lt_percentEncodeByte (b : Nat) : (percentEncodeByte b).count '<' = 0 := by
  unfold percentEncodeByte
  have h1 := hexDigitChar_ne_lt (b / 16 % 16) (Nat.mod_lt _ (by omega))
  have h2 := hexDigitChar_ne_lt (b % 16) (Nat.mod_lt _ (by omega))
  simp [List.count_cons, h1, h2]

theorem count_lt_encodeByteList (bs : List Nat) : (encodeByteList bs).count '<' = 0 := by
  induction bs with
  | nil => rfl
  | cons b bs ih =>
    show (percentEncodeByte b ++ encodeByteList bs).count '<' = 0
    rw [List.count_append, count_lt_percentEncodeByte, ih]

theorem uriUnreserved_ne_lt {c : Char} (h : uriUnreserved c = true) : c ≠ '<' := by
  intro he
  subst he
  exact absurd h (by decide)

theorem count_lt_encodeURIComponent (l : List Char) :
    (encodeURIComponent l).count '<' = 0 := by
  induction l with
  | nil => rfl
  | cons c cs ih =>
    show ((if uriUnreserved c then [c] else encodeByteList (utf8Bytes c)) ++
        encodeURIComponent cs).count '<' = 0
    rw [List.count_append, ih]
    split
    · next h => simp [List.count_cons, uriUnreserved_ne_lt h]
    · rw [count_lt_encodeByteList]

/-- The chat-message markup built by the `twitch_message` handler
(script.js lines 468-479): the template literal with `bgClass`, the
sanitized username and the highlighted (pre-sanitized) message
interpolated. -/
def twitchMessageHTML (username message : List Char) : List Char :=
  "\n        <div class=\"log-line ".toList
  ++ (if mentionTest message then "mention-bg".toList else [])
  ++ "\">\n            <span class=\"twitch-user\">".toList
  ++ sanitizeHTML username
  ++ ":</span> \n            <span>".toList
  ++ highlightMentions message
  ++ "</span>\n        </div>".toList

/-- The chat-log copy of a bot reply built by the `bot_reply` handler
(`chatHTML`, script.js lines 503-507), with the sanitized reply
interpolated. -/
def botReplyChatHTML (reply : List Char) : List Char :=
  "\n        <div class=\"log-line\" style=\"background-color: rgba(99, 226, 183, 0.05);\">\n            <span class=\"twitch-user\" style=\"color: #63e2b7;\">Nami:</span> \n            <span>".toList
  ++ sanitizeHTML reply
  ++ "</span>\n        </div>".toList

/-- `censorshipIndicator` of script.js lines 489-490 (the `reason` is
interpolated raw). -/
def censorshipIndicatorHTML (isCensored : Bool) (reason : List Char) : List Char :=
  if isCensored then
    "<span class=\"censored-indicator\">🚨 FILTERED (".toList ++ reason ++ ")</span>".toList
  else []

/-- JavaScript boolean-to-string interpolation of `isCensored`. -/
def boolStr (b : Bool) : List Char :=
  if b then "true".toList else "false".toList

/-- The nami-replies copy of a bot reply built by the `bot_reply` handler
(`namiHTML`, script.js lines 492-499): raw reply, prompt, reason and
filtered area percent-encoded into `data-` attributes, the sanitized
reply and the censorship indicator as visible text. -/
def namiReplyHTML (reply prompt reason filteredArea : List Char)
    (isCensored : Bool) : List Char :=
  "<div class=\"log-line nami-reply cursor-pointer ".toList
  ++ (if isCensored then "censored-reply".toList else [])
  ++ "\" onclick=\"openDrawer(this)\" \n        data-reply=\"".toList
  ++ encodeURIComponent reply
  ++ "\" \n        data-sent=\"".toList
  ++ encodeURIComponent prompt
  ++ "\" \n        data-censored=\"".toList
  ++ boolStr isCensored
  ++ "\"\n        data-reason=\"".toList
  ++ encodeURIComponent reason
  ++ "\"\n        data-filtered-area=\"".toList
  ++ encodeURIComponent filteredArea
  ++ "\">\n        <strong>Nami:</strong> ".toList
  ++ sanitizeHTML reply
  ++ censorshipIndicatorHTML isCensored reason
  ++ "\n        <span class=\"ml-2 opacity-0 group-hover:opacity-100 text-xs text-gray-400 align-middle\">📄 Context</span></div>".toList

theorem count_lt_twitchMessageHTML (u m : List Char) :
    (twitchMessageHTML u m).count '<' = 6 + 2 * mentionMatches m := by
  unfold twitchMessageHTML
  rw [List.count_append, List.count_append, List.count_append, List.count_append,
    List.count_append, List.count_append]
  rw [count_lt_sanitize, count_lt_highlightMentions]
  have hbg : (if mentionTest m then "mention-bg".toList else
      ([] : List Char)).count '<' = 0 := by
    split
    · decide
    · decide
  rw [hbg]
  have h1 : ("\n        <div class=\"log-line ".toList).count '<' = 1 := by decide
  have h2 : ("\">\n            <span class=\"twitch-user\">".toList).count '<' = 1 := by
    decide
  have h3 : (":</span> \n            <span>".toList).count '<' = 2 := by decide
  have h4 : ("</span>\n        </div>".toList).count '<' = 2 := by decide
  rw [h1, h2, h3, h4]
  omega

theorem count_lt_botReplyChatHTML (r : List Char) :
    (botReplyChatHTML r).count '<' = 6 := by
  unfold botReplyChatHTML
  rw [List.count_append, List.count_append, count_lt_sanitize]
  have h1 : ("\n        <div class=\"log-line\" style=\"background-color: rgba(99, 226, 183, 0.05);\">\n            <span class=\"twitch-user\" style=\"color: #63e2b7;\">Nami:</span> \n            <span>".toList).count '<' = 4 := by
    decide
  have h2 : ("</span>\n        </div>".toList).count '<' = 2 := by decide
  rw [h1, h2]

theorem count_lt_namiReplyHTML_uncensored (r p cr fa : List Char) :
    (namiReplyHTML r p cr fa false).count '<' = 6 := by
  unfold namiReplyHTML censorshipIndicatorHTML boolStr
  rw [if_neg (by decide), if_neg (by decide), if_neg (by decide), List.append_nil]
  rw [List.count_append, List.count_append, List.count_append, List.count_append,
    List.count_append, List.count_append, List.count_append, List.count_append,
    List.count_append, List.count_append, List.count_append, List.count_append,
    List.count_append, List.count_append]
  rw [count_lt_sanitize, count_lt_encodeURIComponent, count_lt_encodeURIComponent,
    count_lt_encodeURIComponent, count_lt_encodeURIComponent]
  have h1 : ("<div class=\"log-line nami-reply cursor-pointer ".toList).count '<' = 1 := by
    decide
  have h2 : (("\" onclick=\"openDrawer(this)\" \n        data-reply=\"".toList)).count '<' = 0 := by
    decide
  have h3 : (("\" \n        data-sent=\"".toList)).count '<' = 0 := by decide
  have h4 : (("\" \n        data-censored=\"".toList)).count '<' = 0 := by decide
  have h5 : (("\"\n        data-reason=\"".toList)).count '<' = 0 := by decide
  have h6 : (("\"\n        data-filtered-area=\"".toList)).count '<' = 0 := by decide
  have h7 : (("\">\n        <strong>Nami:</strong> ".toList)).count '<' = 2 := by decide
  have h8 : (("\n        <span class=\"ml-2 opacity-0 group-hover:opacity-100 text-xs text-gray-400 align-middle\">📄 Context</span></div>".toList)).count '<' = 3 := by
    decide
  have h9 : (("false".toList)).count '<' = 0 := by decide
  have h10 : (([] : List Char)).count '<' = 0 := rfl
  rw [h1, h2, h3, h4, h5, h6, h7, h8, h9, h10]

/-- C8: `sanitizeHTML` is the lossless text-node serialization — decoding
its output returns the input exactly, and its output contains no `<` or
`>` at all, so markup in the input renders as literal text.  Moreover the
chat username, the chat message and the bot reply reach the log markup
only through `sanitizeHTML` (the message via `highlightMentions`, which
sanitizes first; the reply's `data-` attribute copies through
`encodeURIComponent`): the number of `<` in each built fragment is the
template's own tag count — 6 for the chat-message line plus 2 per
highlight span, 6 for each bot-reply line — independent of the
user-controlled text. -/
theorem c8_sanitize_and_injection_safety :
    (∀ s : List Char, decodeEntities (sanitizeHTML s) = s) ∧
    (∀ s : List Char, (sanitizeHTML s).count '<' = 0 ∧ (sanitizeHTML s).count '>' = 0) ∧
    (∀ u m : List Char, (twitchMessageHTML u m).count '<' = 6 + 2 * mentionMatches m) ∧
    (∀ r : List Char, (botReplyChatHTML r).count '<' = 6) ∧
    (∀ r p cr fa : List Char, (namiReplyHTML r p cr fa false).count '<' = 6) :=
  ⟨decode_sanitize,
   fun s => ⟨count_lt_sanitize s, count_gt_sanitize s⟩,
   count_lt_twitchMessageHTML,
   count_lt_botReplyChatHTML,
   count_lt_namiReplyHTML_uncensored⟩
